import Mathlib

/-!
# Verification of the Formula 1 dashboard (src/visualization/app.py)

A shallow embedding of the app's data model and operations.

Tables (`pandas.DataFrame`) are embedded as Lean lists of row structures,
in row order.  Column selection followed by `.values[0]` is embedded as
`values0`, which fails with `AppError.indexError` on an empty frame, as
`numpy` raises `IndexError` there.  The spec's error taxonomy names
(`EmptyRankings`, `NotFound`) are present as constructors of `AppError` so
that claims about them can be stated; the embedded code never produces
them.

`DataFrame.sort_values` is embedded as `List.insertionSort` on the
relevant key.  Note: the source calls `sort_values` with the default
`kind='quicksort'`, which pandas documents as not stable; the embedding
fixes one admissible order for tied keys, so a theorem proved here that
depended on tie order would depend on that modelling choice — the claim
theorems below are arranged not to.

Fractional championship points (half points were awarded in some seasons)
make `points` a `ℚ`; `lat`/`lng` are likewise `ℚ`.
-/

namespace F1

/-- One row of `data/processed/circuits.csv`. -/
structure CircuitRow where
  year : Nat
  round : Nat
  name : String
  country : String
  lat : ℚ
  lng : ℚ
deriving DecidableEq

/-- One row of `data/processed/drivers.csv`. -/
structure DriverRow where
  year : Nat
  round : Nat
  code : String
  forename : String
  surname : String
  number : Nat
  points : ℚ
  position : Nat
deriving DecidableEq

/-- Errors the embedded code (or the spec's taxonomy) can name.
`indexError` models Python's `IndexError` from `ndarray` indexing;
`emptyRankings` and `notFound` are the spec's taxonomy names, never
produced by the code under src/. -/
inductive AppError where
  | indexError
  | emptyRankings
  | notFound
deriving DecidableEq

/-- `START_YEAR = 1950` (src/visualization/app.py line 7). -/
def START_YEAR : Nat := 1950

/-- `END_YEAR = 2023` (src/visualization/app.py line 8). -/
def END_YEAR : Nat := 2023

/-- Row types that carry a `year` column (both tables do). -/
class HasYear (α : Type) where
  year : α → Nat

instance : HasYear CircuitRow := ⟨CircuitRow.year⟩

instance : HasYear DriverRow := ⟨DriverRow.year⟩

/-- `filter_year(data, year) = data[data["year"] == year]`:
pure equality filter on the `year` column, preserving row order.
Boolean-mask selection returns a fresh frame (a copy), so the result
never aliases `data`. -/
def filter_year {α : Type} [HasYear α] (data : List α) (year : Nat) : List α :=
  data.filter (fun r => decide (HasYear.year r = year))

/-- `drivers["round"].max()`: `none` on an empty column (pandas yields
`NaN` there, which no equality comparison matches). -/
def max_round (drivers : List DriverRow) : Option Nat :=
  (drivers.map (fun r => r.round)).max?

/-- The key order of `.sort_values(by="points", ascending=False)`:
points descending. -/
def points_desc (a b : DriverRow) : Prop :=
  b.points ≤ a.points

instance : DecidableRel points_desc :=
  fun a b => inferInstanceAs (Decidable (b.points ≤ a.points))

instance : IsTotal DriverRow points_desc :=
  ⟨fun a b => le_total b.points a.points⟩

instance : IsTrans DriverRow points_desc :=
  ⟨fun _ _ _ h1 h2 => le_trans h2 h1⟩

/-- The key order of `.sort_values(by=["round"])` on a drivers frame:
round ascending. -/
def round_asc (a b : DriverRow) : Prop :=
  a.round ≤ b.round

instance : DecidableRel round_asc :=
  fun a b => inferInstanceAs (Decidable (a.round ≤ b.round))

instance : IsTotal DriverRow round_asc :=
  ⟨fun a b => le_total a.round b.round⟩

instance : IsTrans DriverRow round_asc :=
  ⟨fun _ _ _ h1 h2 => le_trans h1 h2⟩

/-- The key order of `.sort_values(by="round")` on a circuits frame. -/
def circuit_round_asc (a b : CircuitRow) : Prop :=
  a.round ≤ b.round

instance : DecidableRel circuit_round_asc :=
  fun a b => inferInstanceAs (Decidable (a.round ≤ b.round))

/-- `.sort_values(by="points", ascending=False)` on a drivers frame.
See the header note on sort stability. -/
def sort_points_desc (rows : List DriverRow) : List DriverRow :=
  List.insertionSort points_desc rows

/-- `.set_index("position")`: keys each row by its `position` column. -/
def set_index_position (rows : List DriverRow) : List (Nat × DriverRow) :=
  rows.map (fun r => (r.position, r))

/-- `get_season_rankings(drivers)` (src/visualization/app.py lines 27-35):
rows at the maximum round, sorted by points descending, indexed by
position.  On an empty frame `max()` is `NaN`/`none`, the comparison
selects nothing, and the result is empty. -/
def get_season_rankings (drivers : List DriverRow) : List (Nat × DriverRow) :=
  set_index_position (sort_points_desc
    (drivers.filter (fun r => decide (some r.round = max_round drivers))))

/-- `xs.values[0]`: first element of a column's value array; raises
`IndexError` when the array is empty. -/
def values0 {α : Type} (xs : List α) : Except AppError α :=
  match xs with
  | [] => .error .indexError
  | x :: _ => .ok x

/-- `get_circuit_rankings(drivers, circuits, selection)`
(src/visualization/app.py lines 38-48): round number of the first circuit
row whose `name` equals `selection` (an `IndexError` if none), then the
drivers of that round sorted by points descending, indexed by position. -/
def get_circuit_rankings (drivers : List DriverRow) (circuits : List CircuitRow)
    (selection : String) : Except AppError (List (Nat × DriverRow)) := do
  let rnd_num ← values0
    ((circuits.filter (fun c => decide (c.name = selection))).map (fun c => c.round))
  pure (set_index_position (sort_points_desc
    (drivers.filter (fun r => decide (r.round = rnd_num)))))

/-- `show_winner_text(rankings)` (src/visualization/app.py lines 52-67):
formats the banner from the head row's columns via `.values[0]`, which
raises `IndexError` on an empty rankings frame. -/
def show_winner_text (rankings : List (Nat × DriverRow)) : Except AppError String := do
  let winner := rankings.take 1
  let f ← values0 (winner.map (fun p => p.2.forename))
  let s ← values0 (winner.map (fun p => p.2.surname))
  let winner_name := f ++ " " ++ s
  let n ← values0 (winner.map (fun p => p.2.number))
  let winner_number := "[" ++ toString n ++ "]"
  pure ("\n    <span style=\"font-size: 24px;;\">Winner:</span>\n    <span style=\"font-size: 40px; color: red;\">"
    ++ winner_name
    ++ "</span>\n    <span style=\"font-size: 40px; color: red;\">"
    ++ winner_number ++ "</span>\n    ")

/-- A driver row after a builder assigns the derived `name` column
(`drivers["name"] = ...` / `rankings["name"] = ...`). -/
structure DriverRowN extends DriverRow where
  name : String
deriving DecidableEq

/-- One `scatter_geo` marker. -/
structure GeoMarker where
  lat : ℚ
  lng : ℚ
  hover_name : String
  color : String
  text : Nat
deriving DecidableEq

/-- The declarative chart built by `show_world_map`. -/
structure GeoSpec where
  markers : List GeoMarker
  showlegend : Bool
  marker_size : Nat
deriving DecidableEq

/-- `show_world_map(circuits)` (src/visualization/app.py lines 70-100):
one marker per circuit row at (lat, lng), hover name = circuit name,
colored by country, texted with the round number; legend hidden, marker
size 12.  The second component is the caller's table afterwards: the
builder only reads `circuits`, so it is returned unchanged. -/
def show_world_map (circuits : List CircuitRow) : GeoSpec × List CircuitRow :=
  ({ markers := circuits.map (fun c =>
       { lat := c.lat, lng := c.lng, hover_name := c.name, color := c.country, text := c.round }),
     showlegend := false, marker_size := 12 }, circuits)

/-- `show_races(circuits)` (src/visualization/app.py lines 103-109): sorts
a local rebinding by round (not in place), indexes by round, and tables
name and country.  The caller's frame is unchanged (second component). -/
def show_races (circuits : List CircuitRow) : List (Nat × String × String) × List CircuitRow :=
  let sorted := List.insertionSort circuit_round_asc circuits
  (sorted.map (fun c => (c.round, c.name, c.country)), circuits)

/-- The declarative chart built by `show_driver_progression`: the plotted
columns in row order plus the legend category order.  `px.line` draws one
trace per distinct value of the color column (`code`), connecting that
trace's rows in row order. -/
structure LineSpec where
  xcol : List Nat
  ycol : List ℚ
  colorcol : List String
  hovercol : List String
  legend_order : List String
deriving DecidableEq

/-- `show_driver_progression(drivers, rankings)` (src/visualization/app.py
lines 112-143): sorts the `drivers` frame by round IN PLACE
(`inplace=True`), assigns a `name` column, and plots x=round, y=points
(the column as-is), color=code, with `category_orders={"code": rankings}`.
The second component is the caller's frame afterwards: sorted by round and
carrying the new `name` column — the builder mutates its input. -/
def show_driver_progression (drivers : List DriverRow) (rankings : List String) :
    LineSpec × List DriverRowN :=
  let sorted := List.insertionSort round_asc drivers
  let named : List DriverRowN :=
    sorted.map (fun r => { toDriverRow := r, name := r.forename ++ " " ++ r.surname })
  ({ xcol := named.map (fun r => r.round),
     ycol := named.map (fun r => r.points),
     colorcol := named.map (fun r => r.code),
     hovercol := named.map (fun r => r.name),
     legend_order := rankings }, named)

/-- The (x, y) points of the trace that `px.line` draws for color value
`c`: the rows whose color column equals `c`, in row order. -/
def line_points (spec : LineSpec) (c : String) : List (Nat × ℚ) :=
  ((spec.xcol.zip spec.ycol).zip spec.colorcol).filterMap
    (fun p => if p.2 = c then some p.1 else none)

/-- One bar of the standings chart. -/
structure Bar where
  x : ℚ
  y : String
  color : String
  text : String
deriving DecidableEq

/-- One explicit text annotation added with `bar.add_annotation`. -/
structure BarNote where
  x : ℚ
  y : String
  text : String
  showarrow : Bool
  xanchor : String
deriving DecidableEq

/-- The declarative chart built by `show_driver_points`. -/
structure BarSpec where
  bars : List Bar
  notes : List BarNote
  showlegend : Bool
deriving DecidableEq

/-- The derived `name` column of `show_driver_points`:
`rankings.index.astype(str) + ". " + forename + " " + surname`. -/
def bar_label (p : Nat × DriverRow) : String :=
  toString p.1 ++ ". " ++ p.2.forename ++ " " ++ p.2.surname

/-- `show_driver_points(rankings)` (src/visualization/app.py lines
146-190): assigns the `name` column to the `rankings` frame (mutating it;
second component is the caller's frame afterwards), draws one bar per row
with x=points, y=code, color=code, text=name, hides the legend, and then
adds one annotation at x=0 for each row whose points equal 0 (in row
order), with the row's name, no arrow, anchored left.  The `text=name`
assignment applies to every bar, zero-points rows included. -/
def show_driver_points (rankings : List (Nat × DriverRow)) :
    BarSpec × List (Nat × DriverRowN) :=
  let named : List (Nat × DriverRowN) :=
    rankings.map (fun p => (p.1, { toDriverRow := p.2, name := bar_label p }))
  ({ bars := named.map (fun p =>
       { x := p.2.points, y := p.2.code, color := p.2.code, text := p.2.name }),
     notes := (named.filter (fun p => decide (p.2.points = 0))).map (fun p =>
       { x := 0, y := p.2.code, text := p.2.name, showarrow := false, xanchor := "left" }),
     showlegend := false }, named)

/-- The year dropdown's options:
`list(reversed(range(START_YEAR, END_YEAR + 1)))`
(src/visualization/app.py lines 197-201). -/
def year_options : List Nat :=
  (List.range' START_YEAR (END_YEAR + 1 - START_YEAR)).reverse

/-- The default selection: `st.sidebar.selectbox(..., index=0)` picks the
first option. -/
def default_year : Option Nat :=
  year_options.head?

/-- Everything the script renders for one selected year. -/
structure RenderOutput where
  title : String
  races_table : List (Nat × String × String)
  winner : String
  world_map : GeoSpec
  progression : LineSpec
  standings : BarSpec

/-- The top-level script (src/visualization/app.py lines 193-230) for one
selected year: filter both tables by year, derive the season rankings,
render the sidebar race table, the winner banner, the world map, the
progression chart (legend ordered by `rankings["code"].tolist()`), and
the standings bars.  The first raised error aborts the render, exactly as
an uncaught Python exception aborts the Streamlit script. -/
def render (circuits : List CircuitRow) (drivers : List DriverRow)
    (selected_year : Nat) : Except AppError RenderOutput := do
  let filtered_circuits := filter_year circuits selected_year
  let filtered_drivers := filter_year drivers selected_year
  let rankings := get_season_rankings filtered_drivers
  let races := (show_races filtered_circuits).1
  let winner ← show_winner_text rankings
  let world := (show_world_map filtered_circuits).1
  let prog := (show_driver_progression filtered_drivers
    (rankings.map (fun p => p.2.code))).1
  let bars := (show_driver_points rankings).1
  pure { title := "Formula 1 Season " ++ toString selected_year,
         races_table := races, winner := winner, world_map := world,
         progression := prog, standings := bars }

/-- Modelled from the spec: the "cumulative points-at-round (running sum
of points up to that round)" series that the spec claims for
`driverProgression`.  The code under src/ computes no running sum; this
definition exists only to compare that claim with the chart the code
builds. -/
def running_sums (acc : ℚ) : List (Nat × ℚ) → List (Nat × ℚ)
  | [] => []
  | (r, p) :: rest => (r, acc + p) :: running_sums (acc + p) rest

/-- Modelled from the spec: driver `c`'s claimed cumulative series, over
the rows of `drivers` with code `c` in round order. -/
def cumulative_points (drivers : List DriverRow) (c : String) : List (Nat × ℚ) :=
  running_sums 0
    (((List.insertionSort round_asc drivers).filter
        (fun r => decide (r.code = c))).map (fun r => (r.round, r.points)))

/-! ## Concrete test data -/

/-- A concrete 2021 driver row. -/
def mkDriver (round : Nat) (code forename surname : String) (number : Nat)
    (points : ℚ) (position : Nat) : DriverRow :=
  { year := 2021, round := round, code := code, forename := forename,
    surname := surname, number := number, points := points, position := position }

/-- A concrete 2021 circuit row. -/
def mkCircuit (round : Nat) (name country : String) (lat lng : ℚ) : CircuitRow :=
  { year := 2021, round := round, name := name, country := country,
    lat := lat, lng := lng }

/-- A two-round 2021 season with three drivers; `points` is the cumulative
championship score at each round, as in the processed dataset. -/
def sampleDrivers : List DriverRow :=
  [ mkDriver 1 "VER" "Max" "Verstappen" 33 25 1,
    mkDriver 1 "HAM" "Lewis" "Hamilton" 44 18 2,
    mkDriver 1 "PER" "Sergio" "Perez" 11 0 3,
    mkDriver 2 "VER" "Max" "Verstappen" 33 43 1,
    mkDriver 2 "HAM" "Lewis" "Hamilton" 44 33 2,
    mkDriver 2 "PER" "Sergio" "Perez" 11 0 3 ]

/-- The circuits of the two sample rounds. -/
def sampleCircuits : List CircuitRow :=
  [ mkCircuit 1 "Bahrain International Circuit" "Bahrain" 26 51,
    mkCircuit 2 "Autodromo Enzo e Dino Ferrari" "Italy" 44 12 ]

/-- The season rankings derived from the sample data. -/
def sampleRankings : List (Nat × DriverRow) :=
  get_season_rankings sampleDrivers

/-- Two rows listed with the later round first, to observe reordering. -/
def outOfOrder : List DriverRow :=
  [ mkDriver 2 "VER" "Max" "Verstappen" 33 43 1,
    mkDriver 1 "VER" "Max" "Verstappen" 33 25 1 ]

/-! ## Shared lemmas about the ranked (sorted, position-indexed) views -/

/-- Dropping the position keys recovers the underlying rows. -/
theorem set_index_position_map_snd (l : List DriverRow) :
    (set_index_position l).map Prod.snd = l := by
  simp only [set_index_position, List.map_map]
  exact List.map_id _

/-- The points sort is a permutation of its input. -/
theorem sort_points_desc_perm (l : List DriverRow) :
    List.Perm (sort_points_desc l) l :=
  List.perm_insertionSort points_desc l

/-- The points sort is sorted by points descending. -/
theorem sort_points_desc_sorted (l : List DriverRow) :
    List.Pairwise (fun a b : DriverRow => b.points ≤ a.points)
      (sort_points_desc l) :=
  List.sorted_insertionSort points_desc l

/-- A position-indexed view is ordered by points descending whenever its
underlying rows came out of the points sort. -/
theorem ranked_chain (rows : List DriverRow) :
    List.Chain' (fun p q : Nat × DriverRow => q.2.points ≤ p.2.points)
      (set_index_position (sort_points_desc rows)) := by
  apply List.Pairwise.chain'
  rw [set_index_position, List.pairwise_map]
  exact sort_points_desc_sorted rows

/-- In a position-indexed view, every key is its row's position column. -/
theorem ranked_keys (rows : List DriverRow) :
    ∀ p ∈ set_index_position rows, p.1 = p.2.position := by
  intro p hp
  simp only [set_index_position, List.mem_map] at hp
  obtain ⟨r, _, rfl⟩ := hp
  rfl

/-- If `w` strictly out-scores every other row, the sorted indexed view
starts with `w`, whatever order the sort gives tied rows. -/
theorem ranked_head (rows : List DriverRow) (w : DriverRow) (hw : w ∈ rows)
    (hwin : ∀ r ∈ rows, r ≠ w → r.points < w.points) :
    (set_index_position (sort_points_desc rows)).head?.map Prod.fst
      = some w.position := by
  have hws : w ∈ sort_points_desc rows := (sort_points_desc_perm rows).mem_iff.mpr hw
  cases hs : sort_points_desc rows with
  | nil => rw [hs] at hws; cases hws
  | cons h t =>
    have hsorted := sort_points_desc_sorted rows
    rw [hs] at hsorted hws
    have hhead : h = w := by
      by_cases hh : h = w
      · exact hh
      · have hmem : h ∈ rows := (sort_points_desc_perm rows).mem_iff.mp
          (by rw [hs]; exact List.mem_cons_self h t)
        have hlt : h.points < w.points := hwin h hmem hh
        have hwt : w ∈ t := by
          cases List.mem_cons.mp hws with
          | inl he => exact absurd he.symm hh
          | inr ht => exact ht
        have hle : w.points ≤ h.points :=
          (List.rel_of_sorted_cons hsorted) w hwt
        exact absurd (lt_of_le_of_lt hle hlt) (lt_irrefl _)
    rw [hhead]
    rfl

/-! ## Claim theorems -/

/-- C1 (counterexample): on the empty rankings mapping the code does not
fail with the spec's `EmptyRankings`; it raises the indexing error, so
the claim "fails with `EmptyRankings` ... and not with an unrelated
indexing error" is false at the empty input. -/
theorem c1_cex :
    ¬ (show_winner_text ([] : List (Nat × DriverRow)) = .error .emptyRankings ∧
       show_winner_text ([] : List (Nat × DriverRow)) ≠ .error .indexError) :=
  fun h => h.2 rfl

/-- C1 (amended): `show_winner_text` on every empty rankings mapping fails
with the indexing error (`IndexError` from `.values[0]` on an empty
column), not with a dedicated `EmptyRankings` error. -/
theorem c1_empty_rankings_raises_index_error
    (rankings : List (Nat × DriverRow)) (h : rankings = []) :
    show_winner_text rankings = .error .indexError ∧
      show_winner_text rankings ≠ .error .emptyRankings := by
  subst h
  refine ⟨rfl, fun hc => ?_⟩
  cases hc

/-- C1 witness: the amended theorem applied at the empty list. -/
theorem c1_empty_rankings_raises_index_error_witness :
    show_winner_text ([] : List (Nat × DriverRow)) = .error .indexError ∧
      show_winner_text ([] : List (Nat × DriverRow)) ≠ .error .emptyRankings :=
  c1_empty_rankings_raises_index_error [] rfl

/-- C2 (counterexample): for a year absent from the sample data,
`filter_year` returns the empty sequence, but the downstream rendering
pipeline raises rather than rendering: the whole render fails with the
indexing error (from the winner banner), so "downstream rendering does
not raise on that empty input" is false. -/
theorem c2_cex :
    filter_year sampleDrivers 1999 = [] ∧
      ∀ out, render sampleCircuits sampleDrivers 1999 ≠ .ok out :=
  ⟨rfl, fun _ h => Except.noConfusion h⟩

/-- C2 (amended): for every year with no matching driver rows,
`filter_year` returns the empty sequence and `get_season_rankings`
tolerates it (returning the empty mapping), but the rendering pipeline
then fails with the indexing error raised by the winner banner on the
empty rankings. -/
theorem c2_unmatched_year_filter_empty_banner_raises
    (circuits : List CircuitRow) (drivers : List DriverRow) (y : Nat)
    (hd : ∀ r ∈ drivers, r.year ≠ y) :
    filter_year drivers y = [] ∧
      get_season_rankings (filter_year drivers y) = [] ∧
      render circuits drivers y = .error .indexError := by
  have h1 : filter_year drivers y = [] := by
    simp only [filter_year, List.filter_eq_nil_iff]
    intro r hr
    simpa using hd r hr
  refine ⟨h1, by rw [h1]; rfl, ?_⟩
  simp only [render]
  rw [h1]
  rfl

/-- C2 witness: the amended theorem applied to the sample data and the
year 1999, which the sample data does not contain. -/
theorem c2_unmatched_year_filter_empty_banner_raises_witness :
    filter_year sampleDrivers 1999 = [] ∧
      get_season_rankings (filter_year sampleDrivers 1999) = [] ∧
      render sampleCircuits sampleDrivers 1999 = .error .indexError :=
  c2_unmatched_year_filter_empty_banner_raises sampleCircuits sampleDrivers 1999
    (by decide)

/-- Extracting one color's trace from a chart built over `rows` yields the
(round, points) pairs of the rows with that code, in row order. -/
theorem line_points_mk (rows : List DriverRowN) (rk : List String) (c : String) :
    line_points
      { xcol := rows.map (fun r => r.round), ycol := rows.map (fun r => r.points),
        colorcol := rows.map (fun r => r.code), hovercol := rows.map (fun r => r.name),
        legend_order := rk } c
      = (rows.filter (fun r => decide (r.code = c))).map (fun r => (r.round, r.points)) := by
  induction rows with
  | nil => rfl
  | cons r rest ih =>
    by_cases h : r.code = c <;>
      simp_all [line_points, List.filter_cons]

/-- C3: for a non-empty drivers frame whose last round has a strict
winner `w` carrying position 1, `get_season_rankings` returns exactly the
rows whose round is the maximum round of the input, ordered by points
descending, keyed by the `position` column, with the winner at
position 1 as the first entry. -/
theorem c3_season_rankings (drivers : List DriverRow) (w : DriverRow)
    (hw : w ∈ drivers) (hmax : ∀ r ∈ drivers, r.round ≤ w.round)
    (hpos : w.position = 1)
    (hwin : ∀ r ∈ drivers, r.round = w.round → r ≠ w → r.points < w.points) :
    max_round drivers = some w.round ∧
    List.Perm ((get_season_rankings drivers).map Prod.snd)
      (drivers.filter (fun r => decide (r.round = w.round))) ∧
    List.Chain' (fun p q : Nat × DriverRow => q.2.points ≤ p.2.points)
      (get_season_rankings drivers) ∧
    (∀ p ∈ get_season_rankings drivers, p.1 = p.2.position) ∧
    (get_season_rankings drivers).head?.map Prod.fst = some 1 := by
  have hm : max_round drivers = some w.round := by
    rw [max_round, List.max?_eq_some_iff']
    refine ⟨List.mem_map_of_mem _ hw, ?_⟩
    intro b hb
    obtain ⟨r, hr, rfl⟩ := List.mem_map.mp hb
    exact hmax r hr
  have hF : drivers.filter (fun r => decide (some r.round = max_round drivers))
      = drivers.filter (fun r => decide (r.round = w.round)) := by
    apply List.filter_congr
    intro r _
    rw [hm]
    simp
  have hgr : get_season_rankings drivers
      = set_index_position (sort_points_desc
          (drivers.filter (fun r => decide (r.round = w.round)))) := by
    rw [get_season_rankings, hF]
  have hwF : w ∈ drivers.filter (fun r => decide (r.round = w.round)) :=
    List.mem_filter.mpr ⟨hw, by simp⟩
  have hwinF : ∀ r ∈ drivers.filter (fun r => decide (r.round = w.round)),
      r ≠ w → r.points < w.points := by
    intro r hr hne
    have hrf := List.mem_filter.mp hr
    exact hwin r hrf.1 (by simpa using hrf.2) hne
  refine ⟨hm, ?_, ?_, ?_, ?_⟩
  · rw [hgr, set_index_position_map_snd]
    exact sort_points_desc_perm _
  · rw [hgr]
    exact ranked_chain _
  · rw [hgr]
    exact ranked_keys _
  · rw [hgr, ranked_head _ w hwF hwinF, hpos]

/-- C3 witness: the theorem applied to the sample season, whose round-2
strict winner is the VER row at position 1. -/
theorem c3_season_rankings_witness :
    max_round sampleDrivers
      = some (mkDriver 2 "VER" "Max" "Verstappen" 33 43 1).round ∧
    List.Perm ((get_season_rankings sampleDrivers).map Prod.snd)
      (sampleDrivers.filter (fun r =>
        decide (r.round = (mkDriver 2 "VER" "Max" "Verstappen" 33 43 1).round))) ∧
    List.Chain' (fun p q : Nat × DriverRow => q.2.points ≤ p.2.points)
      (get_season_rankings sampleDrivers) ∧
    (∀ p ∈ get_season_rankings sampleDrivers, p.1 = p.2.position) ∧
    (get_season_rankings sampleDrivers).head?.map Prod.fst = some 1 :=
  c3_season_rankings sampleDrivers (mkDriver 2 "VER" "Max" "Verstappen" 33 43 1)
    (by decide) (by decide) rfl (by decide)

/-- C5 (counterexample): with the sample data and a circuit name matching
no circuit row, `get_circuit_rankings` fails with the indexing error
(`IndexError` from `.values[0]` on the empty selection), not with a
dedicated `NotFound` error, so the claim's error clause is false. -/
theorem c5_cex :
    get_circuit_rankings sampleDrivers sampleCircuits "Silverstone"
      = .error .indexError ∧
    get_circuit_rankings sampleDrivers sampleCircuits "Silverstone"
      ≠ .error .notFound := by
  refine ⟨rfl, fun hc => ?_⟩
  cases hc

/-- C5 (amended): `get_circuit_rankings` looks up the round of the first
circuit row whose name equals the selection and returns the driver rows
of that round sorted by points descending and keyed by position; when no
circuit row matches, it fails with the indexing error rather than a
dedicated `NotFound` error. -/
theorem c5_circuit_rankings (drivers : List DriverRow)
    (circuits : List CircuitRow) (s : String) :
    match (circuits.filter (fun c => decide (c.name = s))).head? with
    | none => get_circuit_rankings drivers circuits s = .error .indexError
    | some c0 =>
        ∃ out, get_circuit_rankings drivers circuits s = .ok out ∧
          List.Perm (out.map Prod.snd)
            (drivers.filter (fun r => decide (r.round = c0.round))) ∧
          List.Chain' (fun p q : Nat × DriverRow => q.2.points ≤ p.2.points) out ∧
          ∀ p ∈ out, p.1 = p.2.position := by
  cases hh : (circuits.filter (fun c => decide (c.name = s))).head? with
  | none =>
    have he : circuits.filter (fun c => decide (c.name = s)) = [] :=
      List.head?_eq_none_iff.mp hh
    rw [get_circuit_rankings, he]
    rfl
  | some c0 =>
    obtain ⟨t, ht⟩ := List.head?_eq_some_iff.mp hh
    refine ⟨set_index_position (sort_points_desc
      (drivers.filter (fun r => decide (r.round = c0.round)))), ?_, ?_, ?_, ?_⟩
    · rw [get_circuit_rankings, ht]
      rfl
    · rw [set_index_position_map_snd]
      exact sort_points_desc_perm _
    · exact ranked_chain _
    · exact ranked_keys _

/-- C5 witness: the amended theorem applied to the sample data with the
round-1 circuit's exact name, exercising the found branch. -/
theorem c5_circuit_rankings_witness :
    match (sampleCircuits.filter
      (fun c => decide (c.name = "Bahrain International Circuit"))).head? with
    | none =>
        get_circuit_rankings sampleDrivers sampleCircuits
          "Bahrain International Circuit" = .error .indexError
    | some c0 =>
        ∃ out, get_circuit_rankings sampleDrivers sampleCircuits
            "Bahrain International Circuit" = .ok out ∧
          List.Perm (out.map Prod.snd)
            (sampleDrivers.filter (fun r => decide (r.round = c0.round))) ∧
          List.Chain' (fun p q : Nat × DriverRow => q.2.points ≤ p.2.points) out ∧
          ∀ p ∈ out, p.1 = p.2.position :=
  c5_circuit_rankings sampleDrivers sampleCircuits "Bahrain International Circuit"

/-- C6 (counterexample): with the sample data, the y-series that
`show_driver_progression` plots for driver HAM is the raw points column
([18, 33]), not the claimed running sum of points up to each round
([18, 51]). -/
theorem c6_cex :
    line_points (show_driver_progression sampleDrivers
        (sampleRankings.map (fun p => p.2.code))).1 "HAM" ≠
      cumulative_points sampleDrivers "HAM" := by
  intro h
  have h1 : line_points (show_driver_progression sampleDrivers
      (sampleRankings.map (fun p => p.2.code))).1 "HAM" = [(1, (18 : ℚ)), (2, 33)] := rfl
  have h2 : cumulative_points sampleDrivers "HAM"
      = [(1, (0 : ℚ) + 18), (2, (0 : ℚ) + 18 + 33)] := rfl
  rw [h1, h2] at h
  norm_num at h

/-- C6 (amended): `show_driver_progression` builds one line per driver
code with x = round (ascending within each line) and y = the `points`
column value of each row as-is — no running sum is applied — and the
legend ordered by the given code order. -/
theorem c6_progression_plots_raw_points (drivers : List DriverRow)
    (rk : List String) (c : String) :
    (show_driver_progression drivers rk).1.legend_order = rk ∧
    line_points (show_driver_progression drivers rk).1 c
      = ((List.insertionSort round_asc drivers).filter
           (fun r => decide (r.code = c))).map (fun r => (r.round, r.points)) ∧
    List.Chain' (fun p q : Nat × ℚ => p.1 ≤ q.1)
      (line_points (show_driver_progression drivers rk).1 c) := by
  have h2 : line_points (show_driver_progression drivers rk).1 c
      = ((List.insertionSort round_asc drivers).filter
           (fun r => decide (r.code = c))).map (fun r => (r.round, r.points)) := by
    refine (line_points_mk ((List.insertionSort round_asc drivers).map (fun r =>
        ({ toDriverRow := r, name := r.forename ++ " " ++ r.surname } : DriverRowN)))
        rk c).trans ?_
    rw [List.filter_map, List.map_map]
    rfl
  refine ⟨rfl, h2, ?_⟩
  rw [h2]
  apply List.Pairwise.chain'
  rw [List.pairwise_map]
  exact (List.sorted_insertionSort round_asc drivers).filter _

/-- C6 witness: the amended theorem applied to the sample data with the
final-standings code order and the VER trace. -/
theorem c6_progression_plots_raw_points_witness :
    (show_driver_progression sampleDrivers
        ["VER", "HAM", "PER"]).1.legend_order = ["VER", "HAM", "PER"] ∧
    line_points (show_driver_progression sampleDrivers
        ["VER", "HAM", "PER"]).1 "VER"
      = ((List.insertionSort round_asc sampleDrivers).filter
           (fun r => decide (r.code = "VER"))).map (fun r => (r.round, r.points)) ∧
    List.Chain' (fun p q : Nat × ℚ => p.1 ≤ q.1)
      (line_points (show_driver_progression sampleDrivers
        ["VER", "HAM", "PER"]).1 "VER") :=
  c6_progression_plots_raw_points sampleDrivers ["VER", "HAM", "PER"] "VER"

/-- C7 (counterexample): in the sample rankings the zero-points row (PER)
does get an annotation at x = 0, but not INSTEAD of an inline bar label:
its bar still carries the inline text label, so the claim as stated is
false at this input. -/
theorem c7_cex :
    ¬ (∀ p ∈ sampleRankings, p.2.points = 0 →
        (∃ a ∈ (show_driver_points sampleRankings).1.notes,
           a.x = 0 ∧ a.y = p.2.code ∧ a.text = bar_label p) ∧
        (∀ b ∈ (show_driver_points sampleRankings).1.bars,
           b.y = p.2.code → b.text = "")) := by
  decide

/-- C7 (amended): `show_driver_points` draws one bar per driver row with
x = points, y = code, inline text label "{position}. {forename}
{surname}"; the rows with points = 0 are exactly the ones that in
addition receive an explicit text annotation at x = 0 carrying the same
label (the inline label is not removed from their bars; on a zero-length
bar it merely has no room to show). -/
theorem c7_zero_points_annotated (rankings : List (Nat × DriverRow)) :
    (show_driver_points rankings).1.bars
      = rankings.map (fun p =>
          { x := p.2.points, y := p.2.code, color := p.2.code, text := bar_label p }) ∧
    (∀ a : BarNote, a ∈ (show_driver_points rankings).1.notes ↔
      ∃ p ∈ rankings, p.2.points = 0 ∧
        a = { x := 0, y := p.2.code, text := bar_label p,
              showarrow := false, xanchor := "left" }) ∧
    (∀ p ∈ rankings, p.2.points = 0 →
      ∃ b ∈ (show_driver_points rankings).1.bars,
        b.y = p.2.code ∧ b.text = bar_label p) := by
  have hbars : (show_driver_points rankings).1.bars
      = rankings.map (fun p =>
          ({ x := p.2.points, y := p.2.code, color := p.2.code,
             text := bar_label p } : Bar)) := by
    simp only [show_driver_points, List.map_map]
    rfl
  refine ⟨hbars, ?_, ?_⟩
  · intro a
    simp only [show_driver_points, List.mem_map, List.mem_filter, decide_eq_true_eq]
    constructor
    · rintro ⟨q, ⟨⟨p, hp, rfl⟩, hz⟩, rfl⟩
      exact ⟨p, hp, hz, rfl⟩
    · rintro ⟨p, hp, hz, rfl⟩
      exact ⟨_, ⟨⟨p, hp, rfl⟩, hz⟩, rfl⟩
  · intro p hp _
    refine ⟨{ x := p.2.points, y := p.2.code, color := p.2.code,
              text := bar_label p }, ?_, rfl, rfl⟩
    rw [hbars]
    exact List.mem_map_of_mem _ hp

/-- C7 witness: the amended theorem applied to the sample rankings, which
contain a zero-points row. -/
theorem c7_zero_points_annotated_witness :
    (show_driver_points sampleRankings).1.bars
      = sampleRankings.map (fun p =>
          { x := p.2.points, y := p.2.code, color := p.2.code, text := bar_label p }) ∧
    (∀ a : BarNote, a ∈ (show_driver_points sampleRankings).1.notes ↔
      ∃ p ∈ sampleRankings, p.2.points = 0 ∧
        a = { x := 0, y := p.2.code, text := bar_label p,
              showarrow := false, xanchor := "left" }) ∧
    (∀ p ∈ sampleRankings, p.2.points = 0 →
      ∃ b ∈ (show_driver_points sampleRankings).1.bars,
        b.y = p.2.code ∧ b.text = bar_label p) :=
  c7_zero_points_annotated sampleRankings

/-- C8 (counterexample): `show_driver_progression` is not a pure function
of its input table: it sorts the frame it is given in place
(`inplace=True`), so after the call the caller's table `outOfOrder` has
its rows reordered ([round 1, round 2] instead of [round 2, round 1]). -/
theorem c8_cex :
    (show_driver_progression outOfOrder []).2.map (fun r => r.round)
      ≠ outOfOrder.map (fun r => r.round) := by
  decide

/-- C8 (amended): the world-map and race-table builders leave the table
they are given unchanged, but `show_driver_progression` leaves its input
frame round-sorted in place (with a `name` column added) and
`show_driver_points` adds a `name` column to the rankings frame it is
given (row keys, order and original columns preserved).  The loaded
source tables are still never mutated, because the script passes the
builders boolean-mask copies (`filter_year`) and derived frames
(`get_season_rankings`), never the loaded tables themselves. -/
theorem c8_builder_mutation_profile (circuits : List CircuitRow)
    (drivers : List DriverRow) (rk : List String)
    (rankings : List (Nat × DriverRow)) :
    (show_world_map circuits).2 = circuits ∧
    (show_races circuits).2 = circuits ∧
    (show_driver_progression drivers rk).2.map (fun r => r.toDriverRow)
      = List.insertionSort round_asc drivers ∧
    (show_driver_points rankings).2.map (fun p => (p.1, p.2.toDriverRow))
      = rankings := by
  refine ⟨rfl, rfl, ?_, ?_⟩
  · simp only [show_driver_progression, List.map_map]
    exact List.map_id _
  · simp only [show_driver_points, List.map_map]
    exact List.map_id _

/-- C8 witness: the amended theorem applied to the sample circuits, the
out-of-order drivers frame, and the sample rankings. -/
theorem c8_builder_mutation_profile_witness :
    (show_world_map sampleCircuits).2 = sampleCircuits ∧
    (show_races sampleCircuits).2 = sampleCircuits ∧
    (show_driver_progression outOfOrder ["VER"]).2.map (fun r => r.toDriverRow)
      = List.insertionSort round_asc outOfOrder ∧
    (show_driver_points sampleRankings).2.map (fun p => (p.1, p.2.toDriverRow))
      = sampleRankings :=
  c8_builder_mutation_profile sampleCircuits outOfOrder ["VER"] sampleRankings

/-- C9: the year dropdown offers exactly the years 1950 through 2023,
strictly descending, and `index=0` makes 2023 the default selection. -/
theorem c9_year_selector :
    (∀ y : Nat, y ∈ year_options ↔ START_YEAR ≤ y ∧ y ≤ END_YEAR) ∧
      List.Pairwise (fun a b => b < a) year_options ∧
      year_options.head? = some 2023 ∧ default_year = some 2023 := by
  refine ⟨fun y => ?_, by decide, by decide, by decide⟩
  simp only [year_options, List.mem_reverse, List.mem_range']
  constructor
  · rintro ⟨i, hi, rfl⟩
    simp [START_YEAR, END_YEAR] at hi ⊢
    omega
  · rintro ⟨h1, h2⟩
    refine ⟨y - START_YEAR, ?_, ?_⟩ <;> simp [START_YEAR, END_YEAR] at * <;> omega

/-- C10: on the empty driver rows input `get_season_rankings` returns the
empty mapping (and, being total, raises nothing): the `max` of the empty
round column is `none` (pandas: `NaN`), which no row's round matches. -/
theorem c10_empty_input_empty_rankings :
    get_season_rankings [] = [] ∧ max_round [] = none :=
  ⟨rfl, rfl⟩

end F1
